import Mathlib

/-!
Verification of the NewsFeedSolo recommendation scoring engine.

This file embeds the scoring core of the repository (the database module's
`buildKeywordProfile`, `scoreArticle`, `trackInteraction`,
`getRecommendedArticles` and `getSimilarArticles`, together with the
HTTP interaction endpoint of `server.js`) as Lean definitions and proves
the specification's claims about them.

Modelling conventions:
* JavaScript numbers are modelled as real numbers (`ℝ`); timestamps are
  milliseconds since the epoch, so `Date.now() - date` divided by
  `1000*60*60*24 = 86400000` is an age in days.
* A JavaScript `Map` is modelled as an association list `List (String × ℝ)`
  whose keys are kept unique by the `mapSet`/`mapDelete` operations,
  mirroring insertion order.
* `Array.prototype.sort` is a stable sort (ES2019); it is modelled by
  `List.mergeSort`, which is stable, with the boolean comparator
  corresponding to the JS numeric comparator.
* SQL rows and query results are modelled by lists; the two tables of the
  schema form a `DbState`.
* The current time is an explicit parameter `now` wherever the source reads
  `Date.now()` (or SQLite's `julianday('now')`).
-/

namespace NewsFeedSolo

/-! ### Configuration constants (defaults from the environment block of the
database module, lines 14–31). -/

def KEYWORD_MATCH_WEIGHT : ℝ := 0.4
def CATEGORY_WEIGHT : ℝ := 0.2
def SOURCE_WEIGHT : ℝ := 0.2
def RECENCY_WEIGHT : ℝ := 0.2
def INTERACTION_DECAY_DAYS : ℝ := 30
def KEYWORD_PROFILE_MIN_WEIGHT : ℝ := 0.2
def VIEW_FATIGUE_FACTOR : ℝ := 0.2
def THUMBS_UP_WEIGHT : ℝ := 5.0
def THUMBS_DOWN_WEIGHT : ℝ := -3.0
def CLICK_WEIGHT : ℝ := 1.0
def JUST_IN_BOOST_WEIGHT : ℝ := 5.0
def JUST_IN_MIN_KEYWORD_MATCHES : ℕ := 2
def JUST_IN_MAX_VIEWS : ℕ := 5

/-- Milliseconds in a day: `1000 * 60 * 60 * 24`. -/
def MS_PER_DAY : ℝ := 86400000

/-! ### Data model -/

/-- A row of the `articles` table, restricted to the columns the scoring
core reads.  `keywords` is the parsed form of the JSON `keywords` column.
`direct_interaction_score` is the per-article decayed interaction sum that
the recommendation query attaches to each candidate row (it is `0` on rows
that did not come from that query, matching the falsy-check in
`scoreArticle`). -/
structure Article where
  id : ℕ
  feed_title : String
  feed_category : String
  published_at : ℝ
  view_count : ℕ
  keywords : List String
  direct_interaction_score : ℝ


/-- A row of the `article_interactions` table. -/
structure Interaction where
  article_id : ℕ
  interaction_type : String
  created_at : ℝ


/-- The two tables of the SQLite schema. -/
structure DbState where
  articles : List Article
  interactions : List Interaction

/-- One `{name, weight}` entry of the profile arrays returned by
`buildKeywordProfile`. -/
structure ProfileEntry where
  name : String
  weight : ℝ


/-- The user preference profile returned by `buildKeywordProfile`. -/
structure Profile where
  keywords : List ProfileEntry
  sources : List ProfileEntry
  categories : List ProfileEntry

/-- The result row of the join
`SELECT a.id, a.keywords, a.feed_title, a.feed_category, ai.interaction_type,
ai.created_at FROM article_interactions ai JOIN articles a ...` used by
`buildKeywordProfile`. -/
structure InteractionRow where
  keywords : List String
  feed_title : String
  feed_category : String
  interaction_type : String
  created_at : ℝ

/-! ### JS `Map` as an association list with unique keys -/

/-- `map.get(k) || 0`. -/
def mapGet (m : List (String × ℝ)) (k : String) : ℝ :=
  match m.find? (fun e => e.1 == k) with
  | some e => e.2
  | none => 0

/-- `map.set(k, v)`: replaces the value in place if the key is present,
otherwise appends the new binding (JS `Map` keeps insertion order). -/
def mapSet (m : List (String × ℝ)) (k : String) (v : ℝ) : List (String × ℝ) :=
  if m.any (fun e => e.1 == k) then
    m.map (fun e => if e.1 == k then (k, v) else e)
  else
    m ++ [(k, v)]

/-- `map.delete(k)`. -/
def mapDelete (m : List (String × ℝ)) (k : String) : List (String × ℝ) :=
  m.filter (fun e => !(e.1 == k))

/-- The JS comparator `(a, b) => key(b) - key(a)` (descending by `key`)
as a boolean "may precede" relation for the stable merge sort. -/
noncomputable def byKeyDesc {α : Type} (key : α → ℝ) (a b : α) : Bool :=
  decide (key b ≤ key a)

/-! ### Profile builder (`buildKeywordProfile`, database module lines 216–324) -/

/-- The `switch (interaction.interaction_type)` mapping interaction types to
base weights; unknown types keep the initial `baseWeight = 0`. -/
def interactionBaseWeight (t : String) : ℝ :=
  if t == "thumbs_up" then THUMBS_UP_WEIGHT
  else if t == "thumbs_down" then THUMBS_DOWN_WEIGHT
  else if t == "click" then CLICK_WEIGHT
  else 0

/-- `Math.exp(-daysSinceInteraction / INTERACTION_DECAY_DAYS)` where
`daysSinceInteraction = (now - created_at) / (1000*60*60*24)`. -/
noncomputable def interactionDecayFactor (now created_at : ℝ) : ℝ :=
  Real.exp (-((now - created_at) / MS_PER_DAY) / INTERACTION_DECAY_DAYS)

/-- The intermediate `profile` object of `buildKeywordProfile`: three JS maps. -/
structure RawProfile where
  keywords : List (String × ℝ)
  sources : List (String × ℝ)
  categories : List (String × ℝ)

/-- The body of the `keywords.forEach(...)` loop of `buildKeywordProfile`
(lines 273–283): add the decayed weight to the keyword's running total and
keep the entry only while the total is strictly positive. -/
noncomputable def keywordStep (weight : ℝ) (m : List (String × ℝ))
    (kw : String) : List (String × ℝ) :=
  if 0 < mapGet m kw + weight then mapSet m kw (mapGet m kw + weight)
  else mapDelete m kw

/-- Processing of one interaction row inside `interactions.forEach(...)`:
decayed weight, unconditional source/category accumulation, and the
keyword loop that deletes entries whose running total becomes non-positive. -/
noncomputable def processInteraction (now : ℝ) (p : RawProfile)
    (r : InteractionRow) : RawProfile :=
  let weight := interactionBaseWeight r.interaction_type *
    interactionDecayFactor now r.created_at
  let sources := mapSet p.sources r.feed_title (mapGet p.sources r.feed_title + weight)
  let categories := mapSet p.categories r.feed_category
    (mapGet p.categories r.feed_category + weight)
  let keywords := r.keywords.foldl (keywordStep weight) p.keywords
  ⟨keywords, sources, categories⟩

/-- `sortMapByWeight` (lines 292–297): sort entries descending by weight
(stable, via the JS comparator `(a, b) => b[1] - a[1]`), convert to
`{name, weight}` records, and drop entries below
`KEYWORD_PROFILE_MIN_WEIGHT`. -/
noncomputable def sortMapByWeight (m : List (String × ℝ)) : List ProfileEntry :=
  ((m.mergeSort (byKeyDesc Prod.snd)).map (fun e => ProfileEntry.mk e.1 e.2)).filter
    (fun e => decide (KEYWORD_PROFILE_MIN_WEIGHT ≤ e.weight))

/-- `buildKeywordProfile` (lines 216–324), as a function of the joined
interaction rows and the current time. -/
noncomputable def buildKeywordProfile (rows : List InteractionRow) (now : ℝ) :
    Profile :=
  let raw := rows.foldl (processInteraction now) ⟨[], [], []⟩
  ⟨sortMapByWeight raw.keywords, sortMapByWeight raw.sources,
    sortMapByWeight raw.categories⟩

/-! ### Article scorer (`scoreArticle`, database module lines 332–446) -/

/-- The component scores and total returned by `scoreArticle`. -/
structure Scores where
  keywordScore : ℝ
  sourceScore : ℝ
  categoryScore : ℝ
  recencyScore : ℝ
  interactionScore : ℝ
  justInBoost : ℝ
  viewFatigueScore : ℝ
  keywordMatchCount : ℕ
  totalScore : ℝ

/-- Lookup in `new Map(entries.map(e => [e.name, e.weight]))` followed by
`.get(k) || 0`: with duplicate names the later entry wins, absent keys give 0. -/
def lookupWeight (l : List ProfileEntry) (k : String) : ℝ :=
  match l.reverse.find? (fun e => e.name == k) with
  | some e => e.weight
  | none => 0

/-- `scoreArticle(article, profile)` (lines 332–446).  The `Date.now()`
reads inside the function are the explicit parameter `now`.  The null
guard on `article`/`profile` is dropped (both arguments are total values
here). -/
noncomputable def scoreArticle (article : Article) (profile : Profile)
    (now : ℝ) : Scores :=
  -- 1. keyword score
  let rawKeywordScore := article.keywords.foldl
    (fun s kw => s + lookupWeight profile.keywords kw) 0
  let keywordMatchCount :=
    article.keywords.countP (fun kw => decide (lookupWeight profile.keywords kw ≠ 0))
  let normalized := if 0 < article.keywords.length then
      rawKeywordScore / Real.sqrt (article.keywords.length : ℝ)
    else rawKeywordScore
  let keywordScore := normalized * KEYWORD_MATCH_WEIGHT
  -- 2. source score
  let sourceScore := lookupWeight profile.sources article.feed_title * SOURCE_WEIGHT
  -- 3. category score
  let categoryScore :=
    lookupWeight profile.categories article.feed_category * CATEGORY_WEIGHT
  -- 4. recency score
  let daysSincePublished := (now - article.published_at) / MS_PER_DAY
  let recencyScore := Real.exp (-daysSincePublished / 7) * RECENCY_WEIGHT
  -- 5. direct interaction score
  let interactionScore := article.direct_interaction_score
  -- 6. "Just in" boost
  let justInBoost := if article.view_count < JUST_IN_MAX_VIEWS ∧
      JUST_IN_MIN_KEYWORD_MATCHES ≤ keywordMatchCount then
      JUST_IN_BOOST_WEIGHT * (1 - (article.view_count : ℝ) / (JUST_IN_MAX_VIEWS : ℝ))
    else 0
  -- 7. view fatigue penalty
  let viewFatigueScore := if 0 < article.view_count then
      -((article.view_count : ℝ) ^ (1.5 : ℝ)) * VIEW_FATIGUE_FACTOR
    else 0
  let totalScore := keywordScore + sourceScore + categoryScore + recencyScore +
    interactionScore + justInBoost + viewFatigueScore
  ⟨keywordScore, sourceScore, categoryScore, recencyScore, interactionScore,
    justInBoost, viewFatigueScore, keywordMatchCount, totalScore⟩

/-! ### Recommendation orchestrator
(`getRecommendedArticles`, database module lines 612–701) -/

/-- A row returned to the client: the article spread together with the
attached component scores (`none` on the recency fallback path, where the
plain table rows carry no score fields). -/
structure RecRow where
  article : Article
  scores : Option Scores

/-- `final_score` of a returned row (`0` stands for the absent field of a
fallback row; the scoring path always attaches scores). -/
noncomputable def finalScore (r : RecRow) : ℝ :=
  (r.scores.map (fun s => s.totalScore)).getD 0

/-- `published_at` of a returned row. -/
def recPublishedAt (r : RecRow) : ℝ := r.article.published_at

/-- The inner join of `article_interactions` with `articles` feeding
`buildKeywordProfile`: each interaction is paired with its article's
keywords, feed title and feed category; interactions whose article id has
no matching article row are dropped (inner-join semantics). -/
def joinRows (db : DbState) : List InteractionRow :=
  db.interactions.filterMap (fun i =>
    (db.articles.find? (fun a => a.id == i.article_id)).map (fun a =>
      ⟨a.keywords, a.feed_title, a.feed_category, i.interaction_type, i.created_at⟩))

/-- The correlated subquery computing `direct_interaction_score` for one
article id: `SUM(CASE interaction_type ... * EXP(-(julianday('now') -
julianday(created_at)) / 30.0) ELSE 0 END)` over the article's own
interactions (`COALESCE(..., 0)` is the empty sum). -/
noncomputable def directInteractionScore (db : DbState) (aid : ℕ) (now : ℝ) : ℝ :=
  ((db.interactions.filter (fun i => i.article_id == aid)).map (fun i =>
    interactionBaseWeight i.interaction_type *
      interactionDecayFactor now i.created_at)).sum

/-- The candidate query of `getRecommendedArticles` (lines 643–661):
articles published within the last 14 days, each with its
`direct_interaction_score` attached, ordered by `published_at DESC`. -/
noncomputable def candidateQuery (db : DbState) (now : ℝ) : List Article :=
  ((db.articles.filter (fun a => decide (now - 14 * MS_PER_DAY < a.published_at))).map
    (fun a => { a with direct_interaction_score := directInteractionScore db a.id now })).mergeSort
    (byKeyDesc Article.published_at)

/-- The fallback query `SELECT * FROM articles ORDER BY published_at DESC
LIMIT ? OFFSET ?` (lines 629–634). -/
noncomputable def fallbackArticles (db : DbState) (limit offset : ℕ) : List RecRow :=
  (((db.articles.mergeSort (byKeyDesc Article.published_at)).drop offset).take limit).map
    (fun a => RecRow.mk a none)

/-- `getRecommendedArticles({limit, offset})` (lines 612–701): build the
profile; if its keyword list is empty fall back to recency ordering,
otherwise score every candidate, sort by `final_score` descending
(stable JS sort) and slice `[offset, offset + limit)`. -/
noncomputable def getRecommendedArticles (db : DbState) (now : ℝ)
    (limit offset : ℕ) : List RecRow :=
  let profile := buildKeywordProfile (joinRows db) now
  if profile.keywords.isEmpty then
    fallbackArticles db limit offset
  else
    let scored := (candidateQuery db now).map (fun a =>
      RecRow.mk a (some (scoreArticle a profile now)))
    let sorted := scored.mergeSort (byKeyDesc finalScore)
    (sorted.drop offset).take limit

/-! ### Similarity engine (`getSimilarArticles`, lines 732–829) -/

/-- The similarity score of lines 798–805: the number of source keywords
contained in the target keyword list, divided by
`Math.sqrt(sourceKeywords.length * Math.max(targetKeywords.length, 1))`.
(`getSimilarArticles` returns early when the source keyword list is empty,
so the formula is only ever evaluated with a nonempty source in JS; with
Lean's 0-division convention the formula itself already yields 0 there.) -/
noncomputable def similarityScore (sourceKeywords targetKeywords : List String) : ℝ :=
  ((sourceKeywords.filter (fun k => targetKeywords.contains k)).length : ℝ) /
    Real.sqrt ((sourceKeywords.length : ℝ) * ((max targetKeywords.length 1 : ℕ) : ℝ))

/-! ### Interaction write path (`trackInteraction`, lines 568–605, and the
`POST /api/articles/:id/interaction` handler, `server.js` lines 164–184) -/

/-- The set of interaction types accepted by the HTTP handler:
`['click', 'thumbs_up', 'thumbs_down']`. -/
def VALID_INTERACTION_TYPES : List String := ["click", "thumbs_up", "thumbs_down"]

/-- `trackInteraction(articleId, type)`: inserts one row into
`article_interactions` with `created_at` defaulting to the current time.
(The interaction metadata blob recorded alongside is not part of the
modelled columns.) -/
def trackInteraction (db : DbState) (articleId : ℕ) (type : String)
    (now : ℝ) : DbState :=
  { db with interactions := db.interactions ++ [⟨articleId, type, now⟩] }

/-- Outcome of the HTTP interaction endpoint, as seen by the client. -/
inductive ApiResult where
  | ok
  | invalidTypeError
deriving DecidableEq

/-- The `POST /api/articles/:id/interaction` handler: reject types outside
`VALID_INTERACTION_TYPES` with a 400 client error before any write,
otherwise record the interaction. -/
def postInteraction (db : DbState) (id : ℕ) (type : String) (now : ℝ) :
    ApiResult × DbState :=
  if VALID_INTERACTION_TYPES.contains type then
    (ApiResult.ok, trackInteraction db id type now)
  else
    (ApiResult.invalidTypeError, db)

/-! ### Spec-side definition used by claim C2 -/

/-- The spec's notion of the *net accumulated weight* of a keyword over an
interaction history: the sum, over the interactions whose article carries
the keyword, of `baseWeight * decayFactor`.  This follows the wording of
spec §4.2 (steps 1–5); it is the quantity the claim compares with the
returned keyword map. -/
noncomputable def specNetKeywordWeight (rows : List InteractionRow) (kw : String)
    (now : ℝ) : ℝ :=
  ((rows.filter (fun r => r.keywords.contains kw)).map (fun r =>
    interactionBaseWeight r.interaction_type *
      interactionDecayFactor now r.created_at)).sum

/-! ### Concrete sample inputs used by witnesses and counterexamples -/

/-- The empty user profile. -/
def emptyProfile : Profile := ⟨[], [], []⟩

/-- A keywordless article with 10 views (published at the epoch). -/
def artNeg : Article := ⟨1, "feed", "cat", 0, 10, [], 0⟩

/-- A keywordless, unviewed article published 7 days after the epoch. -/
def artFuture : Article := ⟨2, "feed", "cat", 604800000, 0, [], 0⟩

/-- A keywordless, unviewed article published at the epoch. -/
def artZero : Article := ⟨3, "feed", "cat", 0, 0, [], 0⟩

/-- A `thumbs_down` interaction at the epoch on an article with keyword `"k"`. -/
def rowDown : InteractionRow := ⟨["k"], "feed", "cat", "thumbs_down", 0⟩

/-- A `click` interaction at the epoch on an article with keyword `"k"`. -/
def rowClick : InteractionRow := ⟨["k"], "feed", "cat", "click", 0⟩

/-- A two-event history: thumbs-down then click on the same keyword. -/
def cexRows : List InteractionRow := [rowDown, rowClick]

/-- A keywordless article with id 10 in feed `"F"`, category `"C"`. -/
def artK : Article := ⟨10, "F", "C", 0, 0, [], 0⟩

/-- The join row produced by a thumbs-up on `artK` at the epoch. -/
def rowUp : InteractionRow := ⟨[], "F", "C", "thumbs_up", 0⟩

/-- A database with one (keywordless) article and one thumbs-up on it:
interactions exist and the profile's source map is nonempty, yet the
profile's keyword list is empty. -/
def dbC10 : DbState := ⟨[artK], [⟨10, "thumbs_up", 0⟩]⟩

/-- An article with id 20 carrying the single keyword `"k1"`. -/
def artW : Article := ⟨20, "F", "C", 0, 0, ["k1"], 0⟩

/-- The join row produced by a thumbs-up on `artW` at the epoch. -/
def rowUp5 : InteractionRow := ⟨["k1"], "F", "C", "thumbs_up", 0⟩

/-- A database whose single thumbs-up interaction gives the profile a
nonempty keyword list, so `getRecommendedArticles` takes the scoring path. -/
def db5 : DbState := ⟨[artW], [⟨20, "thumbs_up", 0⟩]⟩

end NewsFeedSolo

namespace NewsFeedSolo

/-! ## Claims -/

/-- **C1.** For every article and profile, the `totalScore` returned by
`scoreArticle` equals the sum of exactly seven components — weighted keyword
score, weighted source score, weighted category score, weighted recency
score, direct interaction score (added unweighted), just-in boost, and view
fatigue penalty — with no clamping applied, so the total may be negative. -/
theorem scoreArticle_totalScore_is_sum_of_seven :
    (∀ (a : Article) (p : Profile) (now : ℝ),
      (scoreArticle a p now).totalScore =
        (scoreArticle a p now).keywordScore + (scoreArticle a p now).sourceScore +
        (scoreArticle a p now).categoryScore + (scoreArticle a p now).recencyScore +
        (scoreArticle a p now).interactionScore + (scoreArticle a p now).justInBoost +
        (scoreArticle a p now).viewFatigueScore) ∧
    ∃ (a : Article) (p : Profile) (now : ℝ), (scoreArticle a p now).totalScore < 0 := by
  constructor
  · intro a p now
    rfl
  · refine ⟨artNeg, emptyProfile, 0, ?_⟩
    have h10 : (1 : ℝ) < (10 : ℝ) ^ (1.5 : ℝ) := by
      rw [Real.one_lt_rpow_iff_of_pos (by norm_num)]
      norm_num
    simp only [scoreArticle, artNeg, emptyProfile, List.foldl_nil, List.countP_nil,
      List.length_nil, List.reverse_nil, List.find?_nil, lookupWeight]
    norm_num [MS_PER_DAY, RECENCY_WEIGHT, VIEW_FATIGUE_FACTOR, KEYWORD_MATCH_WEIGHT,
      SOURCE_WEIGHT, CATEGORY_WEIGHT, JUST_IN_MAX_VIEWS, JUST_IN_MIN_KEYWORD_MATCHES,
      Real.exp_zero]
    nlinarith [h10]

/-- **C3.** For every article, `scoreArticle`'s just-in boost equals
`JUST_IN_BOOST_WEIGHT * (1 - viewCount / JUST_IN_MAX_VIEWS)` exactly when
`viewCount < JUST_IN_MAX_VIEWS` (default 5) and the count of the article's
keywords present with nonzero weight in the profile is at least
`JUST_IN_MIN_KEYWORD_MATCHES` (default 2), and equals 0 otherwise; in
particular at `viewCount = 5` the boost is 0 regardless of match count, and
at `viewCount = 0` with at least 2 matches it is exactly 5.0 at defaults. -/
theorem scoreArticle_justInBoost_formula :
    ∀ (a : Article) (p : Profile) (now : ℝ),
      ((scoreArticle a p now).justInBoost =
        if a.view_count < JUST_IN_MAX_VIEWS ∧
            JUST_IN_MIN_KEYWORD_MATCHES ≤ (scoreArticle a p now).keywordMatchCount then
          JUST_IN_BOOST_WEIGHT * (1 - (a.view_count : ℝ) / (JUST_IN_MAX_VIEWS : ℕ))
        else 0) ∧
      (scoreArticle { a with view_count := 5 } p now).justInBoost = 0 ∧
      (scoreArticle { a with view_count := 0 } p now).justInBoost =
        (if JUST_IN_MIN_KEYWORD_MATCHES ≤
            (scoreArticle { a with view_count := 0 } p now).keywordMatchCount then
          (5 : ℝ) else 0) := by
  intro a p now
  refine ⟨rfl, ?_, ?_⟩
  · simp [scoreArticle, JUST_IN_MAX_VIEWS]
  · by_cases h : JUST_IN_MIN_KEYWORD_MATCHES ≤
        (scoreArticle { a with view_count := 0 } p now).keywordMatchCount
    · rw [if_pos h]
      have : (scoreArticle { a with view_count := 0 } p now).justInBoost =
          if (0 : ℕ) < JUST_IN_MAX_VIEWS ∧ JUST_IN_MIN_KEYWORD_MATCHES ≤
            (scoreArticle { a with view_count := 0 } p now).keywordMatchCount then
            JUST_IN_BOOST_WEIGHT * (1 - ((0 : ℕ) : ℝ) / (JUST_IN_MAX_VIEWS : ℕ))
          else 0 := rfl
      rw [this, if_pos ⟨by norm_num [JUST_IN_MAX_VIEWS], h⟩]
      norm_num [JUST_IN_BOOST_WEIGHT]
    · rw [if_neg h]
      have : (scoreArticle { a with view_count := 0 } p now).justInBoost =
          if (0 : ℕ) < JUST_IN_MAX_VIEWS ∧ JUST_IN_MIN_KEYWORD_MATCHES ≤
            (scoreArticle { a with view_count := 0 } p now).keywordMatchCount then
            JUST_IN_BOOST_WEIGHT * (1 - ((0 : ℕ) : ℝ) / (JUST_IN_MAX_VIEWS : ℕ))
          else 0 := rfl
      rw [this, if_neg (fun hc => h hc.2)]

/-- **C4 (counterexample).** The claim "the recency component is at most
`RECENCY_WEIGHT` for any `published_at` timestamp the article may carry" is
false: an article whose `published_at` lies 7 days in the future of the
evaluation time gets recency score `exp(1) * RECENCY_WEIGHT >
RECENCY_WEIGHT`. -/
theorem scoreArticle_recency_above_weight_for_future_article :
    RECENCY_WEIGHT < (scoreArticle artFuture emptyProfile 0).recencyScore := by
  have h1 : (scoreArticle artFuture emptyProfile 0).recencyScore =
      Real.exp (-((0 - artFuture.published_at) / MS_PER_DAY) / 7) * RECENCY_WEIGHT := rfl
  have h2 : -((0 - artFuture.published_at) / MS_PER_DAY) / 7 = 1 := by
    norm_num [artFuture, MS_PER_DAY]
  have h3 : (1 : ℝ) < Real.exp 1 := Real.one_lt_exp_iff.mpr one_pos
  rw [h1, h2]
  have : (0 : ℝ) < RECENCY_WEIGHT := by norm_num [RECENCY_WEIGHT]
  nlinarith

/-- **C4 (amended).** For every article, the recency component of
`scoreArticle` — `exp(-daysSincePublished / 7) * RECENCY_WEIGHT` — is always
strictly greater than 0, and it is at most `RECENCY_WEIGHT` whenever the
article's `published_at` does not lie in the future of the evaluation time
(for future-dated articles it exceeds `RECENCY_WEIGHT`, see the
counterexample). -/
theorem scoreArticle_recency_pos_and_bounded :
    ∀ (a : Article) (p : Profile) (now : ℝ),
      0 < (scoreArticle a p now).recencyScore ∧
      (a.published_at ≤ now → (scoreArticle a p now).recencyScore ≤ RECENCY_WEIGHT) := by
  intro a p now
  have hr : (scoreArticle a p now).recencyScore =
      Real.exp (-((now - a.published_at) / MS_PER_DAY) / 7) * RECENCY_WEIGHT := rfl
  have hw : (0 : ℝ) < RECENCY_WEIGHT := by norm_num [RECENCY_WEIGHT]
  constructor
  · rw [hr]
    exact mul_pos (Real.exp_pos _) hw
  · intro h
    rw [hr]
    have hd : (0 : ℝ) ≤ (now - a.published_at) / MS_PER_DAY :=
      div_nonneg (by linarith) (by norm_num [MS_PER_DAY])
    have : Real.exp (-((now - a.published_at) / MS_PER_DAY) / 7) ≤ 1 := by
      rw [Real.exp_le_one_iff]
      have : -((now - a.published_at) / MS_PER_DAY) ≤ 0 := by linarith
      linarith
    nlinarith

/-- **C4 (witness).** The amended theorem applied to a concrete article
published exactly at the evaluation time. -/
theorem scoreArticle_recency_pos_and_bounded_witness :
    0 < (scoreArticle artZero emptyProfile 0).recencyScore ∧
    (scoreArticle artZero emptyProfile 0).recencyScore ≤ RECENCY_WEIGHT :=
  ⟨(scoreArticle_recency_pos_and_bounded artZero emptyProfile 0).1,
    (scoreArticle_recency_pos_and_bounded artZero emptyProfile 0).2
      (by norm_num [artZero])⟩

/-- **C8 (counterexample).** The claim that `scoreArticle` is a pure function
of the article and profile *alone* is false: the function also reads the
current clock (`Date.now()`), so two calls with identical article and
profile made at different times return different outputs (the recency
component decays). -/
theorem scoreArticle_not_function_of_article_profile_alone :
    scoreArticle artZero emptyProfile 0 ≠ scoreArticle artZero emptyProfile 604800000 := by
  intro h
  have hr := congrArg Scores.recencyScore h
  have h1 : (scoreArticle artZero emptyProfile 0).recencyScore =
      Real.exp (-((0 - artZero.published_at) / MS_PER_DAY) / 7) * RECENCY_WEIGHT := rfl
  have h2 : (scoreArticle artZero emptyProfile 604800000).recencyScore =
      Real.exp (-((604800000 - artZero.published_at) / MS_PER_DAY) / 7) * RECENCY_WEIGHT := rfl
  rw [h1, h2] at hr
  have e1 : -((0 - artZero.published_at) / MS_PER_DAY) / 7 = 0 := by
    norm_num [artZero, MS_PER_DAY]
  have e2 : -((604800000 - artZero.published_at) / MS_PER_DAY) / 7 = -1 := by
    norm_num [artZero, MS_PER_DAY]
  rw [e1, e2, Real.exp_zero] at hr
  have hlt : Real.exp (-1) < 1 := Real.exp_lt_one_iff.mpr (by norm_num)
  have hw : (0 : ℝ) < RECENCY_WEIGHT := by norm_num [RECENCY_WEIGHT]
  nlinarith

/-- **C8 (amended).** `scoreArticle` is deterministic and side-effect free as
a function of the article, the profile, and the evaluation time: two calls
with identical article, profile and clock reading yield identical outputs.
(It is *not* a function of article and profile alone, see the
counterexample.) -/
theorem scoreArticle_deterministic :
    ∀ (a a' : Article) (p p' : Profile) (t t' : ℝ),
      a = a' → p = p' → t = t' → scoreArticle a p t = scoreArticle a' p' t' := by
  intro a a' p p' t t' ha hp ht
  rw [ha, hp, ht]

/-- **C8 (witness).** The amended determinism theorem applied at a concrete
article, profile and time. -/
theorem scoreArticle_deterministic_witness :
    scoreArticle artZero emptyProfile 0 = scoreArticle artZero emptyProfile 0 :=
  scoreArticle_deterministic artZero artZero emptyProfile emptyProfile 0 0 rfl rfl rfl

/-- **C9.** Recording an interaction with a type outside
`{click, thumbs_up, thumbs_down}` fails: the HTTP handler rejects it with a
client error before calling `trackInteraction`, and the database state —
in particular the `article_interactions` table — is left unchanged. -/
theorem postInteraction_rejects_invalid_type :
    ∀ (db : DbState) (id : ℕ) (type : String) (now : ℝ),
      type ∉ VALID_INTERACTION_TYPES →
      (postInteraction db id type now).1 = ApiResult.invalidTypeError ∧
      (postInteraction db id type now).2 = db := by
  intro db id type now h
  simp [postInteraction, h]

/-- **C9 (witness).** The rejection theorem applied to the concrete invalid
type `"like"` on an empty database. -/
theorem postInteraction_rejects_invalid_type_witness :
    (postInteraction ⟨[], []⟩ 1 "like" 0).1 = ApiResult.invalidTypeError ∧
    (postInteraction ⟨[], []⟩ 1 "like" 0).2 = (⟨[], []⟩ : DbState) :=
  postInteraction_rejects_invalid_type ⟨[], []⟩ 1 "like" 0 (by decide)

/-! ### Helper lemmas about the association-list map operations -/

theorem list_sum_nonpos {l : List ℝ} (h : ∀ x ∈ l, x ≤ 0) : l.sum ≤ 0 := by
  induction l with
  | nil => simp
  | cons a t ih =>
    have ha := h a (List.mem_cons_self a t)
    have ht := ih (fun x hx => h x (List.mem_cons_of_mem a hx))
    simp only [List.sum_cons]
    linarith

theorem mapGet_eq_zero_of_absent {m : List (String × ℝ)} {kw : String}
    (h : ∀ e ∈ m, e.1 ≠ kw) : mapGet m kw = 0 := by
  unfold mapGet
  rw [List.find?_eq_none.mpr]
  intro e he
  simpa using h e he

theorem mem_of_mem_mapSet {m : List (String × ℝ)} {k : String} {v : ℝ}
    {e : String × ℝ} (h : e ∈ mapSet m k v) : e = (k, v) ∨ e ∈ m := by
  unfold mapSet at h
  split at h
  · rw [List.mem_map] at h
    obtain ⟨e', he', heq⟩ := h
    by_cases hk : (e'.1 == k) = true
    · rw [if_pos hk] at heq
      exact Or.inl heq.symm
    · rw [if_neg hk] at heq
      exact Or.inr (heq ▸ he')
  · rw [List.mem_append] at h
    rcases h with h | h
    · exact Or.inr h
    · simp at h
      exact Or.inl h

theorem mem_of_mem_mapDelete {m : List (String × ℝ)} {k : String}
    {e : String × ℝ} (h : e ∈ mapDelete m k) : e ∈ m :=
  List.mem_of_mem_filter h

/-- One pass of the keyword loop preserves the absence of `kw` from the map,
provided the weight being added is negative whenever `kw` itself is the
keyword being processed. -/
theorem keywordStep_preserves_absent {w : ℝ} {m : List (String × ℝ)}
    {kw k : String} (hneg : k = kw → w < 0) (hm : ∀ e ∈ m, e.1 ≠ kw) :
    ∀ e ∈ keywordStep w m k, e.1 ≠ kw := by
  intro e he
  unfold keywordStep at he
  by_cases hk : k = kw
  · subst hk
    rw [mapGet_eq_zero_of_absent hm] at he
    rw [if_neg (by have := hneg rfl; intro hc; linarith)] at he
    exact hm e (mem_of_mem_mapDelete he)
  · split at he
    · rcases mem_of_mem_mapSet he with h | h
      · rw [h]; exact hk
      · exact hm e h
    · exact hm e (mem_of_mem_mapDelete he)

/-- The whole keyword loop of one interaction preserves the absence of `kw`,
provided the interaction's weight is negative whenever its article carries
`kw`. -/
theorem keywordFold_preserves_absent {w : ℝ} {kw : String} :
    ∀ (ks : List String) (m : List (String × ℝ)),
      (kw ∈ ks → w < 0) → (∀ e ∈ m, e.1 ≠ kw) →
      ∀ e ∈ ks.foldl (keywordStep w) m, e.1 ≠ kw := by
  intro ks
  induction ks with
  | nil => intro m _ hm e he; exact hm e he
  | cons k0 ks ih =>
    intro m hks hm
    rw [List.foldl_cons]
    exact ih (keywordStep w m k0)
      (fun hmem => hks (List.mem_cons_of_mem _ hmem))
      (keywordStep_preserves_absent
        (fun hk => hks (hk ▸ List.mem_cons_self k0 ks)) hm)

/-- Processing the whole interaction history preserves the absence of a
keyword that appears only in `thumbs_down` interactions. -/
theorem rowsFold_keywords_absent {now : ℝ} {kw : String} :
    ∀ (rows : List InteractionRow) (p : RawProfile),
      (∀ r ∈ rows, kw ∈ r.keywords → r.interaction_type = "thumbs_down") →
      (∀ e ∈ p.keywords, e.1 ≠ kw) →
      ∀ e ∈ (rows.foldl (processInteraction now) p).keywords, e.1 ≠ kw := by
  intro rows
  induction rows with
  | nil => intro p _ hp e he; exact hp e he
  | cons r rows ih =>
    intro p hrows hp
    rw [List.foldl_cons]
    refine ih (processInteraction now p r)
      (fun r' hr' => hrows r' (List.mem_cons_of_mem _ hr')) ?_
    show ∀ e ∈ r.keywords.foldl
      (keywordStep (interactionBaseWeight r.interaction_type *
        interactionDecayFactor now r.created_at)) p.keywords, e.1 ≠ kw
    refine keywordFold_preserves_absent r.keywords p.keywords ?_ hp
    intro hmem
    have htype := hrows r (List.mem_cons_self r rows) hmem
    rw [htype]
    have hbase : interactionBaseWeight "thumbs_down" = -3 := by
      have h0 : interactionBaseWeight "thumbs_down" = THUMBS_DOWN_WEIGHT := by rfl
      rw [h0]; norm_num [THUMBS_DOWN_WEIGHT]
    rw [hbase]
    have := Real.exp_pos (-((now - r.created_at) / MS_PER_DAY) / INTERACTION_DECAY_DAYS)
    unfold interactionDecayFactor
    nlinarith

/-- Every entry of `sortMapByWeight m` comes from an entry of `m`. -/
theorem sortMapByWeight_mem {m : List (String × ℝ)} {e : ProfileEntry}
    (h : e ∈ sortMapByWeight m) : ∃ x ∈ m, e.name = x.1 ∧ e.weight = x.2 := by
  unfold sortMapByWeight at h
  have h1 := List.mem_of_mem_filter h
  rw [List.mem_map] at h1
  obtain ⟨x, hx, heq⟩ := h1
  rw [List.mem_mergeSort] at hx
  exact ⟨x, hx, by rw [← heq], by rw [← heq]⟩

/-- **C2 (amended).** For every interaction history in which some keyword
appears only in `thumbs_down` interactions, its net accumulated weight is
≤ 0 and `buildKeywordProfile` returns a keyword map that does not contain
it.  (The claim's stronger clause — that *every* keyword whose net
accumulated weight is ≤ 0 at completion is absent from the returned map —
is false: the incremental deletion of non-positive entries resets the
running total, so a negative-then-positive history can leave the keyword in
the map; see the counterexample.) -/
theorem buildKeywordProfile_thumbsDown_only_absent :
    ∀ (rows : List InteractionRow) (now : ℝ) (kw : String),
      (∀ r ∈ rows, kw ∈ r.keywords → r.interaction_type = "thumbs_down") →
      specNetKeywordWeight rows kw now ≤ 0 ∧
      ∀ e ∈ (buildKeywordProfile rows now).keywords, e.name ≠ kw := by
  intro rows now kw h
  constructor
  · unfold specNetKeywordWeight
    refine list_sum_nonpos ?_
    intro x hx
    rw [List.mem_map] at hx
    obtain ⟨r, hr, rfl⟩ := hx
    rw [List.mem_filter] at hr
    have hmem : kw ∈ r.keywords := by simpa using hr.2
    have htype := h r hr.1 hmem
    rw [htype]
    have hbase : interactionBaseWeight "thumbs_down" = -3 := by
      have h0 : interactionBaseWeight "thumbs_down" = THUMBS_DOWN_WEIGHT := by rfl
      rw [h0]; norm_num [THUMBS_DOWN_WEIGHT]
    rw [hbase]
    have := Real.exp_pos (-((now - r.created_at) / MS_PER_DAY) / INTERACTION_DECAY_DAYS)
    unfold interactionDecayFactor
    nlinarith
  · intro e he
    have he' : e ∈ sortMapByWeight
        (rows.foldl (processInteraction now) ⟨[], [], []⟩).keywords := he
    obtain ⟨x, hx, hname, _⟩ := sortMapByWeight_mem he'
    have habs := rowsFold_keywords_absent rows ⟨[], [], []⟩ h
      (by intro e he; cases he) x hx
    rw [hname]
    exact habs

/-! ### Concrete evaluation of `buildKeywordProfile` on `cexRows` -/

theorem decay_at_zero : interactionDecayFactor 0 0 = 1 := by
  simp [interactionDecayFactor, MS_PER_DAY, INTERACTION_DECAY_DAYS]

theorem weight_down_at_zero :
    interactionBaseWeight "thumbs_down" * interactionDecayFactor 0 0 = -3 := by
  rw [decay_at_zero, (by rfl : interactionBaseWeight "thumbs_down" = THUMBS_DOWN_WEIGHT)]
  norm_num [THUMBS_DOWN_WEIGHT]

theorem weight_click_at_zero :
    interactionBaseWeight "click" * interactionDecayFactor 0 0 = 1 := by
  rw [decay_at_zero, (by rfl : interactionBaseWeight "click" = CLICK_WEIGHT)]
  norm_num [CLICK_WEIGHT]

theorem processInteraction_rowDown_keywords (p : RawProfile)
    (hp : p.keywords = []) : (processInteraction 0 p rowDown).keywords = [] := by
  show ["k"].foldl
    (keywordStep (interactionBaseWeight "thumbs_down" * interactionDecayFactor 0 0))
    p.keywords = []
  rw [hp, List.foldl_cons, List.foldl_nil]
  simp only [keywordStep]
  rw [(by rfl : mapGet [] "k" = (0 : ℝ)), weight_down_at_zero, if_neg (by norm_num)]
  rfl

theorem processInteraction_rowClick_keywords (p : RawProfile)
    (hp : p.keywords = []) :
    (processInteraction 0 p rowClick).keywords = [("k", 1)] := by
  show ["k"].foldl
    (keywordStep (interactionBaseWeight "click" * interactionDecayFactor 0 0))
    p.keywords = [("k", 1)]
  rw [hp, List.foldl_cons, List.foldl_nil]
  simp only [keywordStep]
  rw [(by rfl : mapGet [] "k" = (0 : ℝ)), weight_click_at_zero, if_pos (by norm_num)]
  show [("k", (0 : ℝ) + 1)] = [("k", 1)]
  norm_num

theorem cexRows_profile_keywords :
    (buildKeywordProfile cexRows 0).keywords = [⟨"k", 1⟩] := by
  have hfold : (cexRows.foldl (processInteraction 0) ⟨[], [], []⟩).keywords
      = [("k", 1)] := by
    show (processInteraction 0 (processInteraction 0 ⟨[], [], []⟩ rowDown)
      rowClick).keywords = [("k", 1)]
    exact processInteraction_rowClick_keywords _
      (processInteraction_rowDown_keywords ⟨[], [], []⟩ rfl)
  show sortMapByWeight (cexRows.foldl (processInteraction 0) ⟨[], [], []⟩).keywords
    = [⟨"k", 1⟩]
  rw [hfold]
  unfold sortMapByWeight
  rw [List.mergeSort_singleton]
  simp only [List.map_cons, List.map_nil]
  have hd : (decide (KEYWORD_PROFILE_MIN_WEIGHT ≤ (ProfileEntry.mk "k" 1).weight))
      = true := decide_eq_true (by norm_num [KEYWORD_PROFILE_MIN_WEIGHT])
  simp [List.filter, hd]

/-- **C2 (counterexample).** The claim "any keyword whose net accumulated
weight is ≤ 0 at completion is absent from the returned keyword map" is
false: after a thumbs-down followed by a click on the same keyword (both at
the evaluation time), the keyword's net accumulated weight is `-2 ≤ 0`, yet
the keyword is present in the returned map with weight 1 — the incremental
deletion of non-positive entries reset the running total. -/
theorem buildKeywordProfile_net_nonpos_keyword_present :
    specNetKeywordWeight cexRows "k" 0 ≤ 0 ∧
    ∃ e ∈ (buildKeywordProfile cexRows 0).keywords, e.name = "k" := by
  constructor
  · have hf : cexRows.filter (fun r => r.keywords.contains "k") = cexRows := by rfl
    unfold specNetKeywordWeight
    rw [hf]
    show interactionBaseWeight "thumbs_down" * interactionDecayFactor 0 0 +
      (interactionBaseWeight "click" * interactionDecayFactor 0 0 + 0) ≤ 0
    rw [weight_down_at_zero, weight_click_at_zero]
    norm_num
  · exact ⟨⟨"k", 1⟩, by rw [cexRows_profile_keywords]; exact List.mem_singleton.mpr rfl,
      rfl⟩

/-- **C2 (witness).** The amended theorem applied to the concrete history
consisting of a single thumbs-down interaction on keyword `"k"`. -/
theorem buildKeywordProfile_thumbsDown_only_absent_witness :
    specNetKeywordWeight [rowDown] "k" 0 ≤ 0 ∧
    ∀ e ∈ (buildKeywordProfile [rowDown] 0).keywords, e.name ≠ "k" :=
  buildKeywordProfile_thumbsDown_only_absent [rowDown] 0 "k" (by
    intro r hr hkw
    rw [List.mem_singleton] at hr
    rw [hr]
    rfl)

/-! ### Similarity symmetry (C7) -/

/-- For duplicate-free keyword lists the two matching-keyword counts of the
similarity computation agree: both equal the cardinality of the
intersection of the two keyword sets. -/
theorem filter_contains_length_comm {A B : List String}
    (hA : A.Nodup) (hB : B.Nodup) :
    (A.filter (fun k => B.contains k)).length =
      (B.filter (fun k => A.contains k)).length := by
  have key : ∀ (X Y : List String), X.Nodup →
      (X.filter (fun k => Y.contains k)).length = (X.toFinset ∩ Y.toFinset).card := by
    intro X Y hX
    rw [← List.toFinset_card_of_nodup (hX.filter (fun k => Y.contains k))]
    congr 1
    ext x
    simp [List.mem_filter]
  rw [key A B hA, key B A hB, Finset.inter_comm]

/-- **C7 (counterexample).** The similarity formula of `getSimilarArticles`
is not symmetric on arbitrary keyword *lists*: with a duplicated source
keyword, `similarity(["a","a"], ["a"]) = 2/√2` while
`similarity(["a"], ["a","a"]) = 1/√2`. -/
theorem similarityScore_not_symm_on_duplicates :
    similarityScore ["a", "a"] ["a"] ≠ similarityScore ["a"] ["a", "a"] := by
  have h1 : similarityScore ["a", "a"] ["a"] = 2 / Real.sqrt 2 := by
    unfold similarityScore
    rw [(by rfl : (["a", "a"].filter (fun k => (["a"] : List String).contains k))
      = ["a", "a"])]
    norm_num
  have h2 : similarityScore ["a"] ["a", "a"] = 1 / Real.sqrt 2 := by
    unfold similarityScore
    rw [(by rfl : (["a"].filter (fun k => (["a", "a"] : List String).contains k))
      = ["a"])]
    norm_num
  rw [h1, h2]
  intro h
  have hs : (0 : ℝ) < Real.sqrt 2 := Real.sqrt_pos.mpr (by norm_num)
  rw [div_eq_div_iff (ne_of_gt hs) (ne_of_gt hs)] at h
  have := mul_right_cancel₀ (ne_of_gt hs) h
  norm_num at this

/-- **C7 (amended).** For every pair of *duplicate-free* keyword lists `A`
and `B` (keyword lists have set semantics in the data model), the similarity
score computed by `getSimilarArticles` — `|intersection| / sqrt(|source| *
max(|target|, 1))` — is symmetric.  (On lists with duplicated entries
symmetry fails, see the counterexample.) -/
theorem similarityScore_symm :
    ∀ (A B : List String), A.Nodup → B.Nodup →
      similarityScore A B = similarityScore B A := by
  intro A B hA hB
  by_cases hA0 : A = []
  · subst hA0
    have h1 : similarityScore [] B = 0 := by
      unfold similarityScore
      simp
    have h2 : similarityScore B [] = 0 := by
      unfold similarityScore
      rw [(by simp : (B.filter (fun k => ([] : List String).contains k)) = [])]
      simp
    rw [h1, h2]
  · by_cases hB0 : B = []
    · subst hB0
      have h1 : similarityScore A [] = 0 := by
        unfold similarityScore
        rw [(by simp : (A.filter (fun k => ([] : List String).contains k)) = [])]
        simp
      have h2 : similarityScore [] A = 0 := by
        unfold similarityScore
        simp
      rw [h1, h2]
    · have hAlen : 1 ≤ A.length := by
        cases A with
        | nil => exact absurd rfl hA0
        | cons a t => simp
      have hBlen : 1 ≤ B.length := by
        cases B with
        | nil => exact absurd rfl hB0
        | cons b t => simp
      unfold similarityScore
      rw [filter_contains_length_comm hA hB, Nat.max_eq_left hBlen,
        Nat.max_eq_left hAlen, mul_comm ((A.length : ℝ)) ((B.length : ℝ))]

/-- **C7 (witness).** The amended symmetry theorem applied to two concrete
duplicate-free keyword lists. -/
theorem similarityScore_symm_witness :
    (["a", "b"] : List String).Nodup ∧ (["b", "c"] : List String).Nodup ∧
    similarityScore ["a", "b"] ["b", "c"] = similarityScore ["b", "c"] ["a", "b"] :=
  ⟨by decide, by decide, similarityScore_symm ["a", "b"] ["b", "c"] (by decide) (by decide)⟩

/-! ### Sortedness helpers for the descending comparators -/

theorem byKeyDesc_eq_true {α : Type} (key : α → ℝ) (a b : α) :
    byKeyDesc key a b = true ↔ key b ≤ key a := by
  simp [byKeyDesc]

theorem byKeyDesc_trans {α : Type} (key : α → ℝ) :
    ∀ (a b c : α), byKeyDesc key a b → byKeyDesc key b c → byKeyDesc key a c := by
  intro a b c h1 h2
  rw [byKeyDesc_eq_true] at h1 h2 ⊢
  exact le_trans h2 h1

theorem byKeyDesc_total {α : Type} (key : α → ℝ) :
    ∀ (a b : α), byKeyDesc key a b || byKeyDesc key b a := by
  intro a b
  rcases le_total (key a) (key b) with h | h
  · simp [byKeyDesc, h]
  · simp [byKeyDesc, h]

/-- Any `take`/`drop` slice of a list merge-sorted by a descending real key
is pairwise descending in that key. -/
theorem pairwise_slice_mergeSort {α : Type} (key : α → ℝ) (l : List α)
    (n o : ℕ) :
    (((l.mergeSort (byKeyDesc key)).drop o).take n).Pairwise
      (fun a b => key b ≤ key a) := by
  have hs := List.sorted_mergeSort (byKeyDesc_trans key) (byKeyDesc_total key) l
  have hsub : List.Sublist (((l.mergeSort (byKeyDesc key)).drop o).take n)
      (l.mergeSort (byKeyDesc key)) :=
    (List.take_sublist _ _).trans (List.drop_sublist _ _)
  exact (List.Pairwise.sublist hsub hs).imp
    (fun h => (byKeyDesc_eq_true key _ _).mp h)

/-! ### The recency fallback path (C6, C10) -/

theorem sortMapByWeight_nil : sortMapByWeight [] = [] := by
  unfold sortMapByWeight
  simp

theorem buildKeywordProfile_nil (now : ℝ) :
    buildKeywordProfile [] now = ⟨[], [], []⟩ := by
  unfold buildKeywordProfile
  rw [List.foldl_nil]
  show Profile.mk (sortMapByWeight []) (sortMapByWeight []) (sortMapByWeight []) = _
  rw [sortMapByWeight_nil]

/-- **C6.** For every state with an empty interaction history,
`getRecommendedArticles` skips scoring entirely: it returns the plain
article rows (no score fields attached) ordered by `published_at`
descending, paginated by `limit` and `offset`. -/
theorem getRecommendedArticles_empty_history :
    ∀ (articles : List Article) (now : ℝ) (limit offset : ℕ),
      getRecommendedArticles ⟨articles, []⟩ now limit offset =
        (((articles.mergeSort (byKeyDesc Article.published_at)).drop offset).take
          limit).map (fun a => RecRow.mk a none) ∧
      (getRecommendedArticles ⟨articles, []⟩ now limit offset).Pairwise
        (fun x y => y.article.published_at ≤ x.article.published_at) ∧
      ∀ r ∈ getRecommendedArticles ⟨articles, []⟩ now limit offset,
        r.scores = none := by
  intro articles now limit offset
  have hjoin : joinRows ⟨articles, []⟩ = [] := rfl
  have heq : getRecommendedArticles ⟨articles, []⟩ now limit offset =
      fallbackArticles ⟨articles, []⟩ limit offset := by
    unfold getRecommendedArticles
    rw [hjoin, buildKeywordProfile_nil]
    rfl
  refine ⟨heq, ?_, ?_⟩
  · rw [heq]
    unfold fallbackArticles
    rw [List.pairwise_map]
    exact pairwise_slice_mergeSort Article.published_at articles limit offset
  · intro r hr
    rw [heq] at hr
    unfold fallbackArticles at hr
    rw [List.mem_map] at hr
    obtain ⟨a, _, rfl⟩ := hr
    rfl

/-! ### Facts about the concrete database `dbC10` -/

theorem weight_up_at_zero :
    interactionBaseWeight "thumbs_up" * interactionDecayFactor 0 0 = 5 := by
  rw [decay_at_zero, (by rfl : interactionBaseWeight "thumbs_up" = THUMBS_UP_WEIGHT)]
  norm_num [THUMBS_UP_WEIGHT]

theorem dbC10_keywords_empty :
    (buildKeywordProfile (joinRows dbC10) 0).keywords = [] := by
  rw [(by rfl : joinRows dbC10 = [rowUp])]
  show sortMapByWeight ([rowUp].foldl (processInteraction 0) ⟨[], [], []⟩).keywords = []
  rw [(by rfl : ([rowUp].foldl (processInteraction 0) ⟨[], [], []⟩).keywords
    = ([] : List (String × ℝ)))]
  exact sortMapByWeight_nil

theorem dbC10_sources_nonempty :
    (buildKeywordProfile (joinRows dbC10) 0).sources ≠ [] := by
  rw [(by rfl : joinRows dbC10 = [rowUp])]
  show sortMapByWeight ([rowUp].foldl (processInteraction 0) ⟨[], [], []⟩).sources ≠ []
  rw [(by rfl : ([rowUp].foldl (processInteraction 0) ⟨[], [], []⟩).sources
    = [("F", 0 + interactionBaseWeight "thumbs_up" * interactionDecayFactor 0 0)])]
  unfold sortMapByWeight
  rw [List.mergeSort_singleton]
  simp only [List.map_cons, List.map_nil]
  have hd : decide (KEYWORD_PROFILE_MIN_WEIGHT ≤
      interactionBaseWeight "thumbs_up" * interactionDecayFactor 0 0) = true :=
    decide_eq_true (by
      rw [weight_up_at_zero]
      norm_num [KEYWORD_PROFILE_MIN_WEIGHT])
  simp [List.filter, hd]

/-- **C10.** `getRecommendedArticles` takes the recency-ordered fallback
path exactly when the built profile's keyword list is empty: the fallback
decision never consults the profile's source or category maps, and there
are states — interactions present, nonempty source preferences — where the
keyword list is empty and the fallback is still taken. -/
theorem getRecommendedArticles_fallback_iff_keywords_empty :
    (∀ (db : DbState) (now : ℝ) (limit offset : ℕ),
      ((buildKeywordProfile (joinRows db) now).keywords = [] →
        getRecommendedArticles db now limit offset =
          fallbackArticles db limit offset) ∧
      ((buildKeywordProfile (joinRows db) now).keywords ≠ [] →
        getRecommendedArticles db now limit offset =
          ((((candidateQuery db now).map (fun a => RecRow.mk a
              (some (scoreArticle a (buildKeywordProfile (joinRows db) now) now)))).mergeSort
            (byKeyDesc finalScore)).drop offset).take limit)) ∧
    ∃ (db : DbState) (now : ℝ),
      db.interactions ≠ [] ∧
      (buildKeywordProfile (joinRows db) now).sources ≠ [] ∧
      (buildKeywordProfile (joinRows db) now).keywords = [] ∧
      getRecommendedArticles db now 30 0 = fallbackArticles db 30 0 := by
  have hbranch : ∀ (db : DbState) (now : ℝ) (limit offset : ℕ),
      ((buildKeywordProfile (joinRows db) now).keywords = [] →
        getRecommendedArticles db now limit offset =
          fallbackArticles db limit offset) ∧
      ((buildKeywordProfile (joinRows db) now).keywords ≠ [] →
        getRecommendedArticles db now limit offset =
          ((((candidateQuery db now).map (fun a => RecRow.mk a
              (some (scoreArticle a (buildKeywordProfile (joinRows db) now) now)))).mergeSort
            (byKeyDesc finalScore)).drop offset).take limit) := by
    intro db now limit offset
    constructor
    · intro hkw
      unfold getRecommendedArticles
      rw [if_pos (List.isEmpty_iff.mpr hkw)]
    · intro hkw
      unfold getRecommendedArticles
      rw [if_neg (fun hc => hkw (List.isEmpty_iff.mp hc))]
  refine ⟨hbranch, dbC10, 0, ?_, dbC10_sources_nonempty, dbC10_keywords_empty, ?_⟩
  · show ([⟨10, "thumbs_up", 0⟩] : List Interaction) ≠ []
    simp
  · exact (hbranch dbC10 0 30 0).1 dbC10_keywords_empty

/-- **C10 (witness).** The branch characterisation applied to the concrete
database `dbC10` (whose profile has an empty keyword list but a nonempty
source map). -/
theorem getRecommendedArticles_fallback_iff_keywords_empty_witness :
    (buildKeywordProfile (joinRows dbC10) 0).keywords = [] ∧
    getRecommendedArticles dbC10 0 30 0 = fallbackArticles dbC10 30 0 :=
  ⟨dbC10_keywords_empty,
    (getRecommendedArticles_fallback_iff_keywords_empty.1 dbC10 0 30 0).1
      dbC10_keywords_empty⟩

/-! ### Stability of the recommendation sort (C5)

`Array.prototype.sort` is stable and the candidate query hands it a list
already ordered by publish date descending, so rows with equal
`final_score` stay in publish-date-descending order.  The lemmas below
derive this from the stability of `List.mergeSort`. -/

/-- In a list that is pairwise `r`, two distinct members with `¬ r a b`
must occur in the order `b` then `a`. -/
theorem sublist_swap_of_pairwise {α : Type} {r : α → α → Prop} :
    ∀ {l : List α}, l.Pairwise r → ∀ {a b : α}, a ∈ l → b ∈ l → a ≠ b →
      ¬ r a b → List.Sublist [b, a] l := by
  intro l
  induction l with
  | nil => intro _ a b ha; cases ha
  | cons c t ih =>
    intro hl a b ha hb hab hnr
    have hc := (List.pairwise_cons.mp hl).1
    have ht := (List.pairwise_cons.mp hl).2
    rcases List.mem_cons.mp ha with rfl | hat
    · rcases List.mem_cons.mp hb with rfl | hbt
      · exact absurd rfl hab
      · exact absurd (hc b hbt) hnr
    · rcases List.mem_cons.mp hb with rfl | hbt
      · exact List.Sublist.cons₂ b (List.singleton_sublist.mpr hat)
      · exact List.Sublist.cons c (ih ht hat hbt hab hnr)

/-- A two-element sublist yields a pair of increasing positions carrying
its elements. -/
theorem sublist_pair_index {α : Type} {x y : α} :
    ∀ {L : List α}, List.Sublist [x, y] L →
      ∃ (i j : ℕ) (hi : i < L.length) (hj : j < L.length),
        i < j ∧ L.get ⟨i, hi⟩ = x ∧ L.get ⟨j, hj⟩ = y := by
  intro L
  induction L with
  | nil => intro h; cases h
  | cons c t ih =>
    intro h
    cases h with
    | cons _ h' =>
      obtain ⟨i, j, hi, hj, hij, hx, hy⟩ := ih h'
      exact ⟨i + 1, j + 1, Nat.succ_lt_succ hi, Nat.succ_lt_succ hj,
        Nat.succ_lt_succ hij, hx, hy⟩
    | cons₂ _ h' =>
      have hy' : y ∈ t := List.singleton_sublist.mp h'
      obtain ⟨⟨j, hj⟩, hyj⟩ := List.mem_iff_get.mp hy'
      exact ⟨0, j + 1, Nat.succ_pos _, Nat.succ_lt_succ hj, Nat.succ_pos _,
        rfl, hyj⟩

/-- Stable sorting by a descending real key `k` of a duplicate-free list
that is already pairwise descending in a secondary key `q` produces a list
that is pairwise lexicographically descending in `(k, q)`. -/
theorem mergeSort_pairwise_lex {α : Type} (k q : α → ℝ) (l : List α)
    (hnd : l.Nodup) (hq : l.Pairwise (fun a b => q b ≤ q a)) :
    (l.mergeSort (byKeyDesc k)).Pairwise
      (fun a b => k b < k a ∨ (k a = k b ∧ q b ≤ q a)) := by
  have hperm : List.Perm (l.mergeSort (byKeyDesc k)) l :=
    List.mergeSort_perm l (byKeyDesc k)
  have hndL : (l.mergeSort (byKeyDesc k)).Nodup := hperm.nodup_iff.mpr hnd
  have hsorted := List.sorted_mergeSort (byKeyDesc_trans k) (byKeyDesc_total k) l
  rw [List.pairwise_iff_getElem] at hsorted ⊢
  intro i j hi hj hij
  have hle : k ((l.mergeSort (byKeyDesc k))[j]) ≤ k ((l.mergeSort (byKeyDesc k))[i]) :=
    (byKeyDesc_eq_true k _ _).mp (hsorted i j hi hj hij)
  rcases lt_or_eq_of_le hle with hlt | heq
  · exact Or.inl hlt
  · refine Or.inr ⟨heq.symm, ?_⟩
    by_contra hq'
    push_neg at hq'
    have hab : (l.mergeSort (byKeyDesc k))[i] ≠ (l.mergeSort (byKeyDesc k))[j] := by
      intro h
      rw [h] at hq'
      exact lt_irrefl _ hq'
    have hal : (l.mergeSort (byKeyDesc k))[i] ∈ l :=
      hperm.mem_iff.mp (List.getElem_mem _)
    have hbl : (l.mergeSort (byKeyDesc k))[j] ∈ l :=
      hperm.mem_iff.mp (List.getElem_mem _)
    have hswap : List.Sublist
        [(l.mergeSort (byKeyDesc k))[j], (l.mergeSort (byKeyDesc k))[i]] l :=
      sublist_swap_of_pairwise hq hal hbl hab (not_le.mpr hq')
    have hba : byKeyDesc k ((l.mergeSort (byKeyDesc k))[j])
        ((l.mergeSort (byKeyDesc k))[i]) = true :=
      (byKeyDesc_eq_true k _ _).mpr heq.symm.le
    have hsub := List.pair_sublist_mergeSort (byKeyDesc_trans k)
      (byKeyDesc_total k) hba hswap
    obtain ⟨i', j', hi', hj', hij', hbx, hay⟩ := sublist_pair_index hsub
    have h1 : i' = j := by
      have : (l.mergeSort (byKeyDesc k))[i'] = (l.mergeSort (byKeyDesc k))[j] := by
        simpa [List.get_eq_getElem] using hbx
      exact hndL.getElem_inj_iff.mp this
    have h2 : j' = i := by
      have : (l.mergeSort (byKeyDesc k))[j'] = (l.mergeSort (byKeyDesc k))[i] := by
        simpa [List.get_eq_getElem] using hay
      exact hndL.getElem_inj_iff.mp this
    omega

/-- The candidate query returns rows pairwise descending in publish date
(it ends in `ORDER BY published_at DESC`). -/
theorem candidateQuery_pairwise_published (db : DbState) (now : ℝ) :
    (candidateQuery db now).Pairwise
      (fun a b => b.published_at ≤ a.published_at) := by
  unfold candidateQuery
  exact (List.sorted_mergeSort (byKeyDesc_trans Article.published_at)
    (byKeyDesc_total Article.published_at) _).imp
    (fun h => (byKeyDesc_eq_true Article.published_at _ _).mp h)

/-- If the article table has pairwise-distinct ids (its `PRIMARY KEY`
invariant), the candidate rows are pairwise distinct. -/
theorem candidateQuery_nodup {db : DbState} (now : ℝ)
    (h : (db.articles.map Article.id).Nodup) : (candidateQuery db now).Nodup := by
  unfold candidateQuery
  have h1 : ((db.articles.filter
      (fun a => decide (now - 14 * MS_PER_DAY < a.published_at))).map
      (fun a => { a with direct_interaction_score :=
        directInteractionScore db a.id now })).map Article.id
      = (db.articles.filter
        (fun a => decide (now - 14 * MS_PER_DAY < a.published_at))).map Article.id := by
    rw [List.map_map]
    rfl
  have h2 : ((db.articles.filter
      (fun a => decide (now - 14 * MS_PER_DAY < a.published_at))).map
        Article.id).Nodup :=
    List.Nodup.sublist (List.Sublist.map Article.id (List.filter_sublist _)) h
  have h3 := List.Nodup.of_map Article.id (h1 ▸ h2)
  exact (List.mergeSort_perm _ _).nodup_iff.mpr h3

/-- **C5.** On the scoring path (nonempty keyword profile), and under the
articles table's primary-key invariant (pairwise-distinct ids),
`getRecommendedArticles` returns exactly the slice `[offset, offset+limit)`
of the scored candidates sorted in descending order of `totalScore`, with
ties broken by published date descending (the stable JS sort preserves the
candidate query's publish-date-descending order among equal scores). -/
theorem getRecommendedArticles_sorted_sliced :
    ∀ (db : DbState) (now : ℝ) (limit offset : ℕ),
      (db.articles.map Article.id).Nodup →
      (buildKeywordProfile (joinRows db) now).keywords ≠ [] →
      getRecommendedArticles db now limit offset =
        ((((candidateQuery db now).map (fun a => RecRow.mk a
            (some (scoreArticle a (buildKeywordProfile (joinRows db) now) now)))).mergeSort
          (byKeyDesc finalScore)).drop offset).take limit ∧
      List.Perm
        (((candidateQuery db now).map (fun a => RecRow.mk a
            (some (scoreArticle a (buildKeywordProfile (joinRows db) now) now)))).mergeSort
          (byKeyDesc finalScore))
        ((candidateQuery db now).map (fun a => RecRow.mk a
            (some (scoreArticle a (buildKeywordProfile (joinRows db) now) now)))) ∧
      (((candidateQuery db now).map (fun a => RecRow.mk a
            (some (scoreArticle a (buildKeywordProfile (joinRows db) now) now)))).mergeSort
          (byKeyDesc finalScore)).Pairwise
        (fun x y => finalScore y < finalScore x ∨
          (finalScore x = finalScore y ∧
            y.article.published_at ≤ x.article.published_at)) := by
  intro db now limit offset hnd hkw
  refine ⟨?_, List.mergeSort_perm _ _, ?_⟩
  · unfold getRecommendedArticles
    rw [if_neg (fun hc => hkw (List.isEmpty_iff.mp hc))]
  · have hinj : Function.Injective (fun a => RecRow.mk a
        (some (scoreArticle a (buildKeywordProfile (joinRows db) now) now))) := by
      intro a b hab
      exact congrArg RecRow.article hab
    have hndScored := List.Nodup.map hinj (candidateQuery_nodup now hnd)
    have hqScored : ((candidateQuery db now).map (fun a => RecRow.mk a
        (some (scoreArticle a (buildKeywordProfile (joinRows db) now) now)))).Pairwise
        (fun x y => y.article.published_at ≤ x.article.published_at) :=
      List.Pairwise.map _ (fun a b h => h) (candidateQuery_pairwise_published db now)
    exact mergeSort_pairwise_lex finalScore
      (fun r => r.article.published_at) _ hndScored hqScored

theorem db5_ids_nodup : (db5.articles.map Article.id).Nodup := by
  show ([20] : List ℕ).Nodup
  decide

theorem db5_keywords_nonempty :
    (buildKeywordProfile (joinRows db5) 0).keywords ≠ [] := by
  rw [(by rfl : joinRows db5 = [rowUp5])]
  show sortMapByWeight ([rowUp5].foldl (processInteraction 0) ⟨[], [], []⟩).keywords ≠ []
  have hk : ([rowUp5].foldl (processInteraction 0) ⟨[], [], []⟩).keywords
      = [("k1", (5 : ℝ))] := by
    show ["k1"].foldl (keywordStep (interactionBaseWeight "thumbs_up" *
      interactionDecayFactor 0 0)) [] = [("k1", (5 : ℝ))]
    rw [List.foldl_cons, List.foldl_nil]
    simp only [keywordStep]
    rw [(by rfl : mapGet [] "k1" = (0 : ℝ)), weight_up_at_zero, if_pos (by norm_num)]
    show mapSet [] "k1" (0 + 5) = [("k1", (5 : ℝ))]
    norm_num [mapSet]
  rw [hk]
  unfold sortMapByWeight
  rw [List.mergeSort_singleton]
  simp only [List.map_cons, List.map_nil]
  have hd : decide (KEYWORD_PROFILE_MIN_WEIGHT ≤ (5 : ℝ)) = true :=
    decide_eq_true (by norm_num [KEYWORD_PROFILE_MIN_WEIGHT])
  simp [List.filter, hd]

/-- **C5 (witness).** The sorted-slice theorem applied to the concrete
database `db5`, whose single thumbs-up interaction yields a nonempty
keyword profile. -/
theorem getRecommendedArticles_sorted_sliced_witness :
    ((db5.articles.map Article.id).Nodup ∧
      (buildKeywordProfile (joinRows db5) 0).keywords ≠ []) ∧
    (getRecommendedArticles db5 0 30 0 =
        ((((candidateQuery db5 0).map (fun a => RecRow.mk a
            (some (scoreArticle a (buildKeywordProfile (joinRows db5) 0) 0)))).mergeSort
          (byKeyDesc finalScore)).drop 0).take 30 ∧
      List.Perm
        (((candidateQuery db5 0).map (fun a => RecRow.mk a
            (some (scoreArticle a (buildKeywordProfile (joinRows db5) 0) 0)))).mergeSort
          (byKeyDesc finalScore))
        ((candidateQuery db5 0).map (fun a => RecRow.mk a
            (some (scoreArticle a (buildKeywordProfile (joinRows db5) 0) 0)))) ∧
      (((candidateQuery db5 0).map (fun a => RecRow.mk a
            (some (scoreArticle a (buildKeywordProfile (joinRows db5) 0) 0)))).mergeSort
          (byKeyDesc finalScore)).Pairwise
        (fun x y => finalScore y < finalScore x ∨
          (finalScore x = finalScore y ∧
            y.article.published_at ≤ x.article.published_at))) :=
  ⟨⟨db5_ids_nodup, db5_keywords_nonempty⟩,
    getRecommendedArticles_sorted_sliced db5 0 30 0 db5_ids_nodup
      db5_keywords_nonempty⟩

end NewsFeedSolo
